import Mathlib

/-!
# Dark-chess rules engine and game session: a shallow embedding

This development embeds the dark-chess repository's rules engine (`engine.Board`,
the figure movement rules), and the `game.Game` session facade, and proves the
spec's testable properties about them.  The engine and session sources are not
part of the shipped `src/` tree (only `errors.py`, a handler and the test suite
are), so the engine and session are modelled from the specification, with the
behaviour pinned down by `src/tests/game_t.py` where the two disagree.
-/

namespace DarkChess

/-- Piece colors. -/
inductive Color where
  | white
  | black
deriving DecidableEq, Repr

/-- The opposing color. -/
def Color.other : Color → Color
  | .white => .black
  | .black => .white

/-- Piece kinds (the closed tagged variant of §9 of the spec). -/
inductive Kind where
  | pawn
  | rook
  | knight
  | bishop
  | queen
  | king
deriving DecidableEq, Repr

/-- A board coordinate: file `x` (a=1 .. h=8) and rank `y` (1..8).
Integers are used so that values outside the grid (such as "e9") are
representable, as the engine must reject them. -/
structure Cell where
  x : Int
  y : Int
deriving DecidableEq, Repr

/-- Whether a coordinate lies on the 8×8 grid. -/
def onBoard (c : Cell) : Bool :=
  decide (1 ≤ c.x) && decide (c.x ≤ 8) && decide (1 ≤ c.y) && decide (c.y ≤ 8)

/-- A figure: color, kind and current square. -/
structure Figure where
  color : Color
  kind : Kind
  pos : Cell
deriving DecidableEq, Repr

/-- A capture record: captured piece kind and its color (a "cut"). -/
abbrev Cut := Kind × Color

/-- The board: figures, the chronological capture list `cuts`, the most recent
capture `lastCut`, and the four castling-eligibility flags (§3 of the spec:
two independent booleans per color, cleared monotonically). -/
structure Board where
  figures : List Figure
  cuts : List Cut
  lastCut : Option Cut
  castleWShort : Bool
  castleWLong : Bool
  castleBShort : Bool
  castleBLong : Bool
deriving DecidableEq, Repr

/-- Build a fresh board from a figure placement, as the `Board('Ke1,...')`
constructor does: no captures yet and all castling flags raised. -/
def newBoard (figs : List Figure) : Board :=
  { figures := figs
    cuts := []
    lastCut := none
    castleWShort := true
    castleWLong := true
    castleBShort := true
    castleBLong := true }

/-- The occupant of a square, if any. -/
def Board.figureAt (b : Board) (c : Cell) : Option Figure :=
  b.figures.find? (fun f => decide (f.pos = c))

/-- Whether a square is empty. -/
def Board.cellEmpty (b : Board) (c : Cell) : Bool :=
  (b.figureAt c).isNone

/-- The castling flag of one color and side (`short = true` is kingside),
mirroring `king.can_castle(short)`. -/
def Board.canCastle (b : Board) (c : Color) (short : Bool) : Bool :=
  match c, short with
  | .white, true => b.castleWShort
  | .white, false => b.castleWLong
  | .black, true => b.castleBShort
  | .black, false => b.castleBLong

/-- Sign of an integer, used to step along a sliding piece's line. -/
def isign (i : Int) : Int :=
  if 0 < i then 1 else if i < 0 then -1 else 0

/-- The squares strictly between `s` and `t` along the (orthogonal or diagonal)
line from `s` to `t`.  Only meaningful when the two squares are aligned, which
every caller checks first. -/
def pathCells (s t : Cell) : List Cell :=
  let dx := isign (t.x - s.x)
  let dy := isign (t.y - s.y)
  let n := max (t.x - s.x).natAbs (t.y - s.y).natAbs
  (List.range (n - 1)).map (fun i => ⟨s.x + dx * ((i : Int) + 1), s.y + dy * ((i : Int) + 1)⟩)

/-- Whether every square strictly between `s` and `t` is empty:
blocking pieces of either color halt sliding movement (§4.2). -/
def pathClear (b : Board) (s t : Cell) : Bool :=
  (pathCells s t).all (fun c => b.cellEmpty c)

/-- A pawn's forward direction. -/
def dirY : Color → Int
  | .white => 1
  | .black => -1

/-- A pawn's starting rank, from which the double push is allowed. -/
def startRank : Color → Int
  | .white => 2
  | .black => 7

/-- Modelled from the spec (§4.2, figure sources absent from src/): per-kind
movement geometry.  Pawns: single/double forward push onto empty squares,
diagonal capture only onto an enemy, no capture straight ahead; knights:
L-shapes; bishops/rooks/queens: lines blocked by intervening occupants; kings:
one square any direction (castling is the engine's special case, not here).
A same-color destination is deliberately NOT rejected here: that is the
engine-level CellIsBusy check. -/
def isLegalMove (b : Board) (f : Figure) (t : Cell) : Bool :=
  let s := f.pos
  if s = t then false else
  match f.kind with
  | .rook =>
      (decide (s.x = t.x) || decide (s.y = t.y)) && pathClear b s t
  | .bishop =>
      decide ((t.x - s.x).natAbs = (t.y - s.y).natAbs) && pathClear b s t
  | .queen =>
      (decide (s.x = t.x) || decide (s.y = t.y)
        || decide ((t.x - s.x).natAbs = (t.y - s.y).natAbs)) && pathClear b s t
  | .knight =>
      decide (((t.x - s.x).natAbs = 1 ∧ (t.y - s.y).natAbs = 2)
        ∨ ((t.x - s.x).natAbs = 2 ∧ (t.y - s.y).natAbs = 1))
  | .king =>
      decide ((t.x - s.x).natAbs ≤ 1 ∧ (t.y - s.y).natAbs ≤ 1)
  | .pawn =>
      let d := dirY f.color
      if t.x = s.x then
        (decide (t.y = s.y + d) && b.cellEmpty t)
          || (decide (t.y = s.y + 2 * d) && decide (s.y = startRank f.color)
                && b.cellEmpty ⟨s.x, s.y + d⟩ && b.cellEmpty t)
      else
        decide ((t.x - s.x).natAbs = 1 ∧ t.y = s.y + d)
          && (match b.figureAt t with
              | some g => decide (g.color ≠ f.color)
              | none => false)

/-- Clear the castling flags invalidated by moving figure `f` (§3: a King move
clears both of its color's flags; a Rook moving away from its starting corner
clears that side's flag).  Flags are only ever cleared, never raised. -/
def clearCastles (b : Board) (f : Figure) : Board :=
  match f.kind with
  | .king =>
      match f.color with
      | .white => { b with castleWShort := false, castleWLong := false }
      | .black => { b with castleBShort := false, castleBLong := false }
  | .rook =>
      match f.color with
      | .white =>
          if f.pos = (⟨1, 1⟩ : Cell) then { b with castleWLong := false }
          else if f.pos = (⟨8, 1⟩ : Cell) then { b with castleWShort := false }
          else b
      | .black =>
          if f.pos = (⟨1, 8⟩ : Cell) then { b with castleBLong := false }
          else if f.pos = (⟨8, 8⟩ : Cell) then { b with castleBShort := false }
          else b
  | _ => b

/-- The capture this move would record: the enemy occupant of the target, if
any, as a one-element list (§4.1). -/
def cutsOfMove (b : Board) (t : Cell) : List Cut :=
  match b.figureAt t with
  | some g => [(g.kind, g.color)]
  | none => []

/-- Modelled from the spec (§4.1, `Board.applyMove`, engine source absent from
src/): move the occupant `f` of a square to `t`; when `t` held an enemy figure,
append the capture to `cuts`, set `lastCut` and remove the captured figure.
Castle-flag clearing for the moved figure is folded in (engine step 6). -/
def Board.applyMove (b : Board) (f : Figure) (t : Cell) : Board :=
  let b1 := clearCastles b f
  match b.figureAt t with
  | some g =>
      { b1 with
        figures := (b1.figures.filter
            (fun h => decide (h.pos ≠ f.pos) && decide (h.pos ≠ t))) ++ [{ f with pos := t }]
        cuts := b1.cuts ++ [(g.kind, g.color)]
        lastCut := some (g.kind, g.color) }
  | none =>
      { b1 with
        figures := (b1.figures.filter
            (fun h => decide (h.pos ≠ f.pos))) ++ [{ f with pos := t }] }

/-- End-of-game reasons (the `END_*` constants of `consts.py`). -/
inductive EndReason where
  | checkmate
  | draw
  | resign
  | timeout
deriving DecidableEq, Repr

/-- The error taxonomy of `src/errors.py` (§7 of the spec).  `endGame w r`
stands for the EndGame family: `WhiteWon`/`BlackWon` when `w` names the winner
and `Draw` when `w = none`, always carrying the end reason `r`.  `base` is the
generic `BaseException`; `valueError` is the plain `ValueError` that
`get_color` raises. -/
inductive GameError where
  | outOfBoard
  | cellIsBusy
  | wrongMove
  | wrongFigure
  | wrongTurn
  | notFound
  | gameNotFound
  | endGame (winner : Option Color) (reason : EndReason)
  | base
  | valueError
deriving DecidableEq, Repr

/-- A terminal engine outcome: which color won by checkmate. -/
inductive Outcome where
  | whiteWon
  | blackWon
deriving DecidableEq, Repr

/-- The winning color of a terminal outcome. -/
def Outcome.winner : Outcome → Color
  | .whiteWon => .white
  | .blackWon => .black

/-- Whether some figure of color `atk` could move to or capture on square `t`
(the "attack/reach" notion of §4.4). -/
def Board.attacked (b : Board) (t : Cell) (atk : Color) : Bool :=
  b.figures.any (fun g => decide (g.color = atk) && isLegalMove b g t)

/-- Whether the king of color `c` is attacked by the other color. -/
def Board.kingInCheck (b : Board) (c : Color) : Bool :=
  match b.figures.find? (fun f => decide (f.color = c) && decide (f.kind = Kind.king)) with
  | some k => b.attacked k.pos c.other
  | none => false

/-- All 64 squares of the grid. -/
def allCells : List Cell :=
  (List.range 8).flatMap (fun i => (List.range 8).map (fun j => ⟨(i : Int) + 1, (j : Int) + 1⟩))

/-- A geometrically acceptable move of `f` to `t`: on the grid, legal for the
figure, and not onto a friendly occupant. -/
def Board.pseudoOk (b : Board) (f : Figure) (t : Cell) : Bool :=
  onBoard t && isLegalMove b f t
    && (match b.figureAt t with
        | some g => decide (g.color ≠ f.color)
        | none => true)

/-- A fully legal move of `f` to `t`: geometrically acceptable and not leaving
the mover's own king in check (§4.3 edge policy). -/
def Board.moveOk (b : Board) (f : Figure) (t : Cell) : Bool :=
  b.pseudoOk f t && !((b.applyMove f t).kingInCheck f.color)

/-- Whether color `c` has any legal move at all. -/
def Board.hasLegalMove (b : Board) (c : Color) : Bool :=
  b.figures.any (fun f => decide (f.color = c) && allCells.any (fun t => b.moveOk f t))

/-- Commit a validated normal move: apply it, reject it (WrongMove) if it
leaves the mover's own king in check, then evaluate check status — if the side
to move next is checkmated, report the terminal outcome (engine steps 5–8). -/
def commitMove (b : Board) (f : Figure) (t : Cell) : Except GameError (Board × Option Outcome) :=
  let b2 := b.applyMove f t
  if b2.kingInCheck f.color then .error .wrongMove
  else if b2.kingInCheck f.color.other && !(b2.hasLegalMove f.color.other) then
    .ok (b2, some (match f.color with | .white => Outcome.whiteWon | .black => Outcome.blackWon))
  else .ok (b2, none)

/-- The corner a castling rook starts from. -/
def castleRookFrom (c : Color) (short : Bool) : Cell :=
  ⟨if short then 8 else 1, if c = Color.white then 1 else 8⟩

/-- Execute a castle: king `f` to `t` and rook `r` to `rt`, clearing the
king's castling flags; nothing is captured, so `cuts` and `lastCut` are
untouched. -/
def castleApply (b : Board) (f r : Figure) (t rt : Cell) : Board :=
  let b1 := clearCastles b f
  { b1 with
    figures := (b1.figures.filter
        (fun h => decide (h.pos ≠ f.pos) && decide (h.pos ≠ r.pos)))
      ++ [{ f with pos := t }, { r with pos := rt }] }

/-- Castling as the special two-square king move (§4.2): requires the side's
eligibility flag, the rook on its corner on the king's rank, an empty line
between king and rook, and empty king/rook destinations; moves both king and
rook, capturing nothing, and may not leave the king in check. -/
def castleMove (b : Board) (f : Figure) (t : Cell) : Except GameError (Board × Option Outcome) :=
  let s := f.pos
  let short := decide (s.x < t.x)
  let rf := castleRookFrom f.color short
  let rt : Cell := ⟨if short then t.x - 1 else t.x + 1, s.y⟩
  match b.figureAt rf with
  | some r =>
      if b.canCastle f.color short && decide (r.kind = Kind.rook) && decide (r.color = f.color)
          && decide (rf.y = s.y) && pathClear b s rf && b.cellEmpty t && b.cellEmpty rt
          && !((castleApply b f r t rt).kingInCheck f.color) then
        .ok (castleApply b f r t rt, none)
      else .error .wrongMove
  | none => .error .wrongMove

/-- Modelled from the spec (§4.3 `RulesEngine.move`, engine source absent from
src/): resolve the source square — the resolution itself bounds-checks, so an
off-grid source fails OutOfBoard and an empty on-grid source fails NotFound
(pinned by `test_move`, `game_t.py:241`) — then ownership (WrongFigure), the
target's bounds (OutOfBoard), then geometry: WrongMove when the figure's
legality check rejects the target, CellIsBusy when the target holds a
same-color occupant. -/
def engineMove (b : Board) (c : Color) (s t : Cell) : Except GameError (Board × Option Outcome) :=
  if !(onBoard s) then .error .outOfBoard
  else
    match b.figureAt s with
    | none => .error .notFound
    | some f =>
        if decide (f.color ≠ c) then .error .wrongFigure
        else if !(onBoard t) then .error .outOfBoard
        else if decide (f.kind = Kind.king) && decide ((t.x - s.x).natAbs = 2)
            && decide (t.y = s.y) then
          castleMove b f t
        else if !(isLegalMove b f t) then .error .wrongMove
        else
          match b.figureAt t with
          | some g => if decide (g.color = f.color) then .error .cellIsBusy else commitMove b f t
          | none => commitMove b f t

/-- Run a sequence of requested moves through the engine, ignoring rejected
requests (so arbitrary "subsequent move sequences" can be quantified over). -/
def runEngineMoves (b : Board) : List (Color × Cell × Cell) → Board
  | [] => b
  | (c, s, t) :: ms =>
      match engineMove b c s t with
      | .ok (b2, _) => runEngineMoves b2 ms
      | .error _ => runEngineMoves b ms

/-- The chronological list of captures a sequence of requests performs (one
entry per capture actually made by an accepted move). -/
def capturedDuring (b : Board) : List (Color × Cell × Cell) → List Cut
  | [] => []
  | (c, s, t) :: ms =>
      match engineMove b c s t with
      | .ok (b2, _) => cutsOfMove b t ++ capturedDuring b2 ms
      | .error _ => capturedDuring b ms

/-- Modelled from the spec (§3 `load_game`): the live Board is reconstructed
from the persisted record on load.  Per `test_cuts` (`game_t.py:376`–`379`),
the reconstructed board carries the full persisted capture list `cuts` but its
`lastCut` starts empty. -/
def Board.reload (b : Board) : Board :=
  { b with lastCut := none }

/-- Modelled from the spec (§4.4 VisibilityProjector, serializer source absent
from src/): the board as color `c` may observe it — all of `c`'s own figures at
their true squares, plus any enemy figure occupying a square some figure of
`c` could currently move to or capture.  Everything else is withheld. -/
def boardView (b : Board) (c : Color) : List Figure :=
  b.figures.filter (fun f =>
    decide (f.color = c)
      || b.figures.any (fun g => decide (g.color = c) && isLegalMove b g f.pos))

/-- Outbound notification signals (the `WS_*` constants). -/
inductive Signal where
  | start
  | move
  | drawRequest
  | draw
  | win
  | lose
deriving DecidableEq, Repr

/-- Observable side effects of a session operation: a notification to one
color (or both), or the cache invalidation `onMove` performs. -/
inductive Effect where
  | sendWs (sig : Signal) (target : Option Color)
  | onMove
deriving DecidableEq, Repr

/-- Modelled from the spec (§3/§4.5 GameSession, `game.py` absent from src/):
the session binds the two player tokens to a live board, the recorded move
list, the move counter, the terminal state (end reason and winner, if ended),
the two ephemeral draw-offer flags, and — after `load_game` — the color whose
token was used to load the session. -/
structure GameState where
  white : String
  black : String
  board : Board
  history : List (Color × Cell × Cell)
  moveCount : Nat
  ended : Option (EndReason × Option Color)
  drawWhite : Bool
  drawBlack : Bool
  loadedBy : Option Color
deriving DecidableEq, Repr

/-- A fresh in-progress session over a given board: white to move, no
captures recorded, no draw offers pending. -/
def mkGame (w bk : String) (bd : Board) : GameState :=
  { white := w
    black := bk
    board := bd
    history := []
    moveCount := 0
    ended := none
    drawWhite := false
    drawBlack := false
    loadedBy := none }

/-- Whose turn it is: white moves on even move counts. -/
def GameState.turn (s : GameState) : Color :=
  if s.moveCount % 2 = 0 then .white else .black

/-- One color's pending draw-offer flag. -/
def GameState.drawFlag (s : GameState) (c : Color) : Bool :=
  match c with
  | .white => s.drawWhite
  | .black => s.drawBlack

/-- Record one color's pending draw offer. -/
def GameState.setDrawFlag (s : GameState) (c : Color) : GameState :=
  match c with
  | .white => { s with drawWhite := true }
  | .black => { s with drawBlack := true }

/-- Clear both colors' pending draw offers. -/
def GameState.clearDrawFlags (s : GameState) : GameState :=
  { s with drawWhite := false, drawBlack := false }

/-- Modelled from the spec (§4.5 `get_color`, behaviour pinned by
`test_get_color`, `game_t.py:62`–`71`): an explicit color argument is returned
as-is; with no argument the color whose token loaded the session is returned,
and a session that was constructed directly (never loaded by a token) raises
ValueError. -/
def GameState.get_color (s : GameState) (c : Option Color) : Except GameError Color :=
  match c with
  | some col => .ok col
  | none =>
      match s.loadedBy with
      | some col => .ok col
      | none => .error .valueError

/-- Modelled from the spec (§4.5 `load_game`): resolve which player the token
belongs to (GameNotFound when neither), remember that color as the loader, and
rebuild the live board from the persisted record (`Board.reload`). -/
def loadGame (s : GameState) (token : String) : Except GameError GameState :=
  if token = s.white then .ok { s with loadedBy := some .white, board := s.board.reload }
  else if token = s.black then .ok { s with loadedBy := some .black, board := s.board.reload }
  else .error .gameNotFound

/-- The error an already-ended session raises on any further mutation: the
EndGame subtype for the stored winner, carrying the stored end reason (§4.5). -/
def endedError (e : EndReason × Option Color) : GameError :=
  .endGame e.2 e.1

/-- Modelled from the spec (§4.5 `Game.move` and §7, `game.py` absent from
src/): fail with the stored EndGame if already ended; fail with WrongTurn when
it is not the requesting color's turn; delegate to the engine, propagating its
errors unchanged; persist the move — an unexpected persistence failure
(`persistOk = false`) surfaces the generic base failure with no effects and no
state committed; on success append the move, advance the counter, invalidate
caches (onMove) and notify the opponent, or — on a terminal engine outcome —
finalize the session as ended by checkmate and notify loser and winner. -/
def sessionMove (s : GameState) (c : Color) (src tgt : Cell) (persistOk : Bool) :
    Except GameError (GameState × List Effect) :=
  match s.ended with
  | some e => .error (endedError e)
  | none =>
      if decide (c ≠ s.turn) then .error .wrongTurn
      else
        match engineMove s.board c src tgt with
        | .error e => .error e
        | .ok (b2, outcome) =>
            if !persistOk then .error .base
            else
              let s2 := { s with
                board := b2
                history := s.history ++ [(c, src, tgt)]
                moveCount := s.moveCount + 1 }
              match outcome with
              | none => .ok (s2, [.onMove, .sendWs .move (some c.other)])
              | some o =>
                  .ok ({ s2 with ended := some (.checkmate, some o.winner) },
                    [.onMove, .sendWs .lose (some o.winner.other), .sendWs .win (some o.winner)])

/-- Modelled from the spec (§4.5 `check_draw`): returns true and finalizes the
game as a draw — clearing both flags and notifying both players — only when
both colors' draw flags are currently set and the game has not already ended;
in every other case it returns false without raising and without modifying the
session. -/
def checkDraw (s : GameState) : Bool × GameState × List Effect :=
  match s.ended with
  | some _ => (false, s, [])
  | none =>
      if s.drawWhite && s.drawBlack then
        (true,
         { s with ended := some (.draw, none), drawWhite := false, drawBlack := false },
         [.sendWs .draw (some .white), .sendWs .draw (some .black)])
      else (false, s, [])

/-- Modelled from the spec (§4.5 `draw_accept`): fails with the stored EndGame
if already ended; defaults to the requesting player's own color; records that
color's pending draw flag; then runs `check_draw` — when the opposing flag was
already set this finalizes the draw, otherwise the opponent is sent a
draw-request notification. -/
def drawAccept (s : GameState) (c : Option Color) : Except GameError (GameState × List Effect) :=
  match s.ended with
  | some e => .error (endedError e)
  | none =>
      match s.get_color c with
      | .error e => .error e
      | .ok col =>
          let s1 := s.setDrawFlag col
          match checkDraw s1 with
          | (true, s2, eff) => .ok (s2, eff)
          | (false, s2, _) => .ok (s2, [.sendWs .drawRequest (some col.other)])

/-- Modelled from the spec (§4.5 `draw_refuse`): fails with the stored EndGame
if already ended; otherwise clears both colors' pending draw flags. -/
def drawRefuse (s : GameState) (c : Option Color) : Except GameError (GameState × List Effect) :=
  match s.ended with
  | some e => .error (endedError e)
  | none =>
      match s.get_color c with
      | .error e => .error e
      | .ok _ => .ok (s.clearDrawFlags, [])

/-- Modelled from the spec (§4.5 `resign`): fails with the stored EndGame if
already ended; otherwise immediately finalizes with the opponent as winner and
reason resignation, notifying the winner. -/
def resign (s : GameState) (c : Option Color) : Except GameError (GameState × List Effect) :=
  match s.ended with
  | some e => .error (endedError e)
  | none =>
      match s.get_color c with
      | .error e => .error e
      | .ok col =>
          .ok ({ s with ended := some (.resign, some col.other) },
            [.sendWs .win (some col.other)])

/-- Algebraic notation for a square ("e2"). -/
def cellName (c : Cell) : String :=
  String.mk [Char.ofNat (96 + c.x.toNat), Char.ofNat (48 + c.y.toNat)]

/-- A recorded move formatted the way the repository stores it ("e2-e4"). -/
def moveName (m : Color × Cell × Cell) : String :=
  cellName m.2.1 ++ "-" ++ cellName m.2.2

/-- Modelled from the spec (§4.4 move-history disclosure): while the game is
in progress the query returns only the requesting color's own recorded moves;
once ended, the full interleaved history, in play order either way. -/
def GameState.movesQuery (s : GameState) (c : Color) : List String :=
  match s.ended with
  | some _ => s.history.map moveName
  | none => (s.history.filter (fun m => decide (m.1 = c))).map moveName

/-- Run a list of move requests through the session (persistence succeeding),
ignoring rejected requests. -/
def runSession (s : GameState) : List (Color × Cell × Cell) → GameState
  | [] => s
  | (c, f, t) :: ms =>
      match sessionMove s c f t true with
      | .ok (s2, _) => runSession s2 ms
      | .error _ => runSession s ms

/-- The requests of a list that the session accepts, in play order. -/
def acceptedMoves (s : GameState) : List (Color × Cell × Cell) → List (Color × Cell × Cell)
  | [] => []
  | (c, f, t) :: ms =>
      match sessionMove s c f t true with
      | .ok (s2, _) => (c, f, t) :: acceptedMoves s2 ms
      | .error _ => acceptedMoves s ms

/-! ## Bookkeeping lemmas about the board operations -/

theorem clearCastles_cuts (b : Board) (f : Figure) : (clearCastles b f).cuts = b.cuts := by
  obtain ⟨fc, fk, fp⟩ := f
  cases fk <;> cases fc <;> simp only [clearCastles] <;> split_ifs <;> rfl

theorem clearCastles_lastCut (b : Board) (f : Figure) :
    (clearCastles b f).lastCut = b.lastCut := by
  obtain ⟨fc, fk, fp⟩ := f
  cases fk <;> cases fc <;> simp only [clearCastles] <;> split_ifs <;> rfl

theorem clearCastles_mono (b : Board) (f : Figure) (col : Color) (sh : Bool)
    (h : (clearCastles b f).canCastle col sh = true) : b.canCastle col sh = true := by
  obtain ⟨fc, fk, fp⟩ := f
  cases fk <;> cases fc <;> cases col <;> cases sh <;>
    simp only [clearCastles, Board.canCastle] at h ⊢ <;>
    first
      | exact h
      | simp at h
      | (split_ifs at h <;> simp_all)

theorem applyMove_cuts (b : Board) (f : Figure) (t : Cell) :
    (b.applyMove f t).cuts = b.cuts ++ cutsOfMove b t := by
  rcases h : b.figureAt t with _ | g <;>
    simp [Board.applyMove, cutsOfMove, h, clearCastles_cuts]

theorem applyMove_lastCut (b : Board) (f : Figure) (t : Cell) :
    (b.applyMove f t).lastCut
      = (match b.figureAt t with | some g => some (g.kind, g.color) | none => b.lastCut) := by
  rcases h : b.figureAt t with _ | g <;>
    simp [Board.applyMove, h, clearCastles_lastCut]

theorem applyMove_canCastle (b : Board) (f : Figure) (t : Cell) (col : Color) (sh : Bool) :
    (b.applyMove f t).canCastle col sh = (clearCastles b f).canCastle col sh := by
  rcases h : b.figureAt t with _ | g <;> cases col <;> cases sh <;>
    simp [Board.applyMove, Board.canCastle, h]

theorem applyMove_mono (b : Board) (f : Figure) (t : Cell) (col : Color) (sh : Bool)
    (h : (b.applyMove f t).canCastle col sh = true) : b.canCastle col sh = true := by
  rw [applyMove_canCastle] at h
  exact clearCastles_mono b f col sh h

theorem castleApply_cuts (b : Board) (f r : Figure) (t rt : Cell) :
    (castleApply b f r t rt).cuts = b.cuts := by
  simp [castleApply, clearCastles_cuts]

theorem castleApply_lastCut (b : Board) (f r : Figure) (t rt : Cell) :
    (castleApply b f r t rt).lastCut = b.lastCut := by
  simp [castleApply, clearCastles_lastCut]

theorem castleApply_canCastle (b : Board) (f r : Figure) (t rt : Cell) (col : Color) (sh : Bool) :
    (castleApply b f r t rt).canCastle col sh = (clearCastles b f).canCastle col sh := by
  cases col <;> cases sh <;> simp [castleApply, Board.canCastle]

theorem commitMove_ok (b : Board) (f : Figure) (t : Cell) (b2 : Board) (o : Option Outcome)
    (h : commitMove b f t = .ok (b2, o)) : b2 = b.applyMove f t := by
  simp only [commitMove] at h
  split_ifs at h <;> simp only [Except.ok.injEq, Prod.mk.injEq] at h <;> exact h.1.symm

theorem castleMove_ok_inv (b : Board) (f : Figure) (t : Cell) (b2 : Board) (o : Option Outcome)
    (h : castleMove b f t = .ok (b2, o)) :
    b2.cuts = b.cuts ∧ b2.lastCut = b.lastCut
      ∧ (∀ col sh, b2.canCastle col sh = true → b.canCastle col sh = true)
      ∧ b.figureAt t = none := by
  simp only [castleMove] at h
  repeat' split at h
  all_goals
    first
      | exact Except.noConfusion h
      | (rename_i hc
         simp only [Except.ok.injEq, Prod.mk.injEq] at h
         obtain ⟨hb2, _⟩ := h
         subst hb2
         simp only [Bool.and_eq_true] at hc
         refine ⟨castleApply_cuts .., castleApply_lastCut .., ?_, ?_⟩
         · intro col sh hcc
           rw [castleApply_canCastle] at hcc
           exact clearCastles_mono b f col sh hcc
         · have hemp := hc.1.1.2
           simpa only [Board.cellEmpty, Option.isNone_iff_eq_none] using hemp)

theorem engineMove_ok_cases (b : Board) (c : Color) (s t : Cell) (r : Board × Option Outcome)
    (h : engineMove b c s t = .ok r) :
    ∃ f, b.figureAt s = some f ∧ (castleMove b f t = .ok r ∨ commitMove b f t = .ok r) := by
  simp only [engineMove] at h
  repeat' split at h
  all_goals
    first
      | exact Except.noConfusion h
      | exact ⟨_, by assumption, Or.inl h⟩
      | exact ⟨_, by assumption, Or.inr h⟩

theorem engineMove_ok_inv (b : Board) (c : Color) (s t : Cell) (b2 : Board) (o : Option Outcome)
    (h : engineMove b c s t = .ok (b2, o)) :
    b2.cuts = b.cuts ++ cutsOfMove b t
      ∧ b2.lastCut
          = (match b.figureAt t with | some g => some (g.kind, g.color) | none => b.lastCut)
      ∧ ∀ col sh, b2.canCastle col sh = true → b.canCastle col sh = true := by
  obtain ⟨f, hfs, hcase | hcase⟩ := engineMove_ok_cases b c s t (b2, o) h
  · obtain ⟨h1, h2, h3, h4⟩ := castleMove_ok_inv b f t b2 o hcase
    refine ⟨?_, ?_, h3⟩
    · simp [h1, cutsOfMove, h4]
    · simp [h2, h4]
  · have hb2 := commitMove_ok b f t b2 o hcase
    subst hb2
    exact ⟨applyMove_cuts .., applyMove_lastCut .., fun col sh => applyMove_mono _ _ _ col sh⟩

theorem runEngineMoves_inv (b : Board) (ms : List (Color × Cell × Cell))
    (hinv : b.lastCut = b.cuts.getLast?) :
    (runEngineMoves b ms).cuts = b.cuts ++ capturedDuring b ms
      ∧ (runEngineMoves b ms).lastCut = (runEngineMoves b ms).cuts.getLast? := by
  induction ms generalizing b with
  | nil => simp [runEngineMoves, capturedDuring, hinv]
  | cons m ms ih =>
      obtain ⟨c, s, t⟩ := m
      rcases he : engineMove b c s t with e | ⟨b2, o⟩
      · simp only [runEngineMoves, capturedDuring, he]
        exact ih b hinv
      · obtain ⟨h1, h2, _⟩ := engineMove_ok_inv b c s t b2 o he
        have hinv2 : b2.lastCut = b2.cuts.getLast? := by
          rw [h1, h2]
          rcases hft : b.figureAt t with _ | g
          · simp [cutsOfMove, hft, hinv]
          · simp [cutsOfMove, hft]
        obtain ⟨ih1, ih2⟩ := ih b2 hinv2
        simp only [runEngineMoves, capturedDuring, he]
        refine ⟨?_, ih2⟩
        rw [ih1, h1, List.append_assoc]

theorem runEngineMoves_mono (b : Board) (ms : List (Color × Cell × Cell)) (col : Color) (sh : Bool)
    (h : b.canCastle col sh = false) :
    (runEngineMoves b ms).canCastle col sh = false := by
  induction ms generalizing b with
  | nil => simpa [runEngineMoves] using h
  | cons m ms ih =>
      obtain ⟨c, s, t⟩ := m
      rcases he : engineMove b c s t with e | ⟨b2, o⟩
      · simp only [runEngineMoves, he]
        exact ih b h
      · simp only [runEngineMoves, he]
        refine ih b2 ?_
        obtain ⟨_, _, h3⟩ := engineMove_ok_inv b c s t b2 o he
        cases hb2 : b2.canCastle col sh
        · rfl
        · exact absurd (h3 col sh hb2) (by simp [h])

theorem sessionMove_ok_history (s : GameState) (c : Color) (f t : Cell) (p : Bool)
    (s2 : GameState) (eff : List Effect) (h : sessionMove s c f t p = .ok (s2, eff)) :
    s2.history = s.history ++ [(c, f, t)] := by
  simp only [sessionMove] at h
  repeat' split at h
  all_goals
    first
      | exact Except.noConfusion h
      | (simp only [Except.ok.injEq, Prod.mk.injEq] at h
         obtain ⟨hs2, _⟩ := h
         subst hs2
         rfl)

theorem runSession_history (s : GameState) (ms : List (Color × Cell × Cell)) :
    (runSession s ms).history = s.history ++ acceptedMoves s ms := by
  induction ms generalizing s with
  | nil => simp [runSession, acceptedMoves]
  | cons m ms ih =>
      obtain ⟨c, f, t⟩ := m
      rcases he : sessionMove s c f t true with e | ⟨s2, eff⟩
      · simp only [runSession, acceptedMoves, he]
        exact ih s
      · simp only [runSession, acceptedMoves, he]
        rw [ih s2, sessionMove_ok_history s c f t true s2 eff he, List.append_assoc]
        simp

/-! ## Concrete fixtures, mirroring the deterministic test setups -/

/-- Shorthand for a square. -/
def sq (x y : Int) : Cell := ⟨x, y⟩

/-- The `test_cuts` scenario shrunk to the pieces it touches: kings on e1/e8,
a white pawn on e2 and a black pawn on d7. -/
def pawnBoard : Board :=
  newBoard [⟨.white, .king, sq 5 1⟩, ⟨.white, .pawn, sq 5 2⟩,
            ⟨.black, .king, sq 5 8⟩, ⟨.black, .pawn, sq 4 7⟩]

/-- A session over `pawnBoard` with the test suite's player tokens. -/
def pawnGame : GameState := mkGame "1234" "qwer" pawnBoard

/-- The capture scenario of `test_cuts`: e2-e4, d7-d5, e4xd5. -/
def cutScenario : List (Color × Cell × Cell) :=
  [(.white, sq 5 2, sq 5 4), (.black, sq 4 7, sq 4 5), (.white, sq 5 4, sq 4 5)]

/-- The board `Board('Ke1,Ra1,Rh1,ke8')` of the castling tests. -/
def castleBoard : Board :=
  newBoard [⟨.white, .king, sq 5 1⟩, ⟨.white, .rook, sq 1 1⟩,
            ⟨.white, .rook, sq 8 1⟩, ⟨.black, .king, sq 5 8⟩]

/-- A board whose white rook sees the black pawn on a5 while the black king
stays hidden in the fog. -/
def viewBoard : Board :=
  newBoard [⟨.white, .king, sq 5 1⟩, ⟨.white, .rook, sq 1 1⟩,
            ⟨.black, .pawn, sq 1 5⟩, ⟨.black, .king, sq 5 8⟩]

/-! ## The claims -/

/-- C1: for every board and color `c`, the fog-of-war projection always
contains every figure of color `c` at its true square, and it contains an
enemy figure only when that figure is really on the board and some figure of
color `c` could currently move to or capture on its square. -/
theorem fog_of_war_projection (b : Board) (c : Color) :
    (∀ f ∈ b.figures, f.color = c → f ∈ boardView b c)
      ∧ ∀ f ∈ boardView b c, f.color ≠ c →
          f ∈ b.figures ∧ ∃ g ∈ b.figures, g.color = c ∧ isLegalMove b g f.pos = true := by
  constructor
  · intro f hf hc
    simp only [boardView, List.mem_filter]
    exact ⟨hf, by simp [hc]⟩
  · intro f hf hc
    simp only [boardView, List.mem_filter] at hf
    obtain ⟨hmem, hp⟩ := hf
    refine ⟨hmem, ?_⟩
    simp only [Bool.or_eq_true, decide_eq_true_eq] at hp
    rcases hp with h | h
    · exact absurd h hc
    · simp only [List.any_eq_true, Bool.and_eq_true, decide_eq_true_eq] at h
      obtain ⟨g, hg, hgc, hleg⟩ := h
      exact ⟨g, hg, hgc, hleg⟩

/-- C1 witness: on `viewBoard`, the white rook is in white's own projection,
and the revealed black pawn on a5 is indeed reached by a white figure. -/
theorem fog_of_war_projection_witness :
    (⟨Color.white, Kind.rook, sq 1 1⟩ : Figure) ∈ boardView viewBoard Color.white
      ∧ ∃ g ∈ viewBoard.figures, g.color = Color.white
          ∧ isLegalMove viewBoard g (sq 1 5) = true :=
  ⟨(fog_of_war_projection viewBoard Color.white).1 ⟨Color.white, Kind.rook, sq 1 1⟩
      (by decide) rfl,
   ((fog_of_war_projection viewBoard Color.white).2 ⟨Color.black, Kind.pawn, sq 1 5⟩
      (by decide) (by decide)).2⟩

/-- C3: castling eligibility is monotone — once a side's flag is cleared, no
sequence of further engine moves (including moving the relevant rook back to
its origin square) makes it true again. -/
theorem castling_monotone (b : Board) (col : Color) (sh : Bool)
    (ms : List (Color × Cell × Cell)) (h : b.canCastle col sh = false) :
    (runEngineMoves b ms).canCastle col sh = false :=
  runEngineMoves_mono b ms col sh h

/-- C3 witness: the `test_check_castles_2` scenario — after Ra1a4 white's
queenside flag is cleared, and it stays cleared when the rook later returns
to a1. -/
theorem castling_monotone_witness :
    (runEngineMoves castleBoard [(Color.white, sq 1 1, sq 1 4)]).canCastle Color.white false
        = false
      ∧ (runEngineMoves (runEngineMoves castleBoard [(Color.white, sq 1 1, sq 1 4)])
            [(Color.black, sq 5 8, sq 6 7), (Color.white, sq 8 1, sq 8 8),
             (Color.black, sq 6 7, sq 6 6), (Color.white, sq 1 4, sq 1 1)]).canCastle
          Color.white false = false :=
  ⟨by decide,
   castling_monotone (runEngineMoves castleBoard [(Color.white, sq 1 1, sq 1 4)])
     Color.white false
     [(Color.black, sq 5 8, sq 6 7), (Color.white, sq 8 1, sq 8 8),
      (Color.black, sq 6 7, sq 6 6), (Color.white, sq 1 4, sq 1 1)] (by decide)⟩

/-- C6: any move attempted against an already-ended session fails with the
EndGame subtype for the stored winner, carrying exactly the stored end reason,
whatever that reason is — never with any other error kind. -/
theorem ended_move_rejected (s : GameState) (c : Color) (src tgt : Cell) (p : Bool)
    (r : EndReason) (w : Option Color) (h : s.ended = some (r, w)) :
    sessionMove s c src tgt p = .error (.endGame w r) := by
  simp [sessionMove, endedError, h]

/-- A session that ended by white's resignation. -/
def resignedGame : GameState := { pawnGame with ended := some (.resign, some Color.black) }

/-- C6 witness: moving in a session ended by resignation fails with BlackWon
carrying reason resignation. -/
theorem ended_move_rejected_witness :
    sessionMove resignedGame Color.white (sq 5 2) (sq 5 4) true
      = .error (.endGame (some Color.black) .resign) :=
  ended_move_rejected resignedGame Color.white (sq 5 2) (sq 5 4) true
    .resign (some Color.black) rfl

/-- C2 (amended): on a live board whose `lastCut` agrees with the tail of
`cuts` (as any fresh board does), every engine move sequence appends exactly
one `(piece-kind, captured-color)` entry per capture, in chronological order,
and keeps `lastCut` equal to the most recent entry of `cuts` (or empty);
a board reconstructed on load keeps the full `cuts` list but restarts
`lastCut` empty, even when `cuts` is non-empty. -/
theorem cuts_bookkeeping (b : Board) (ms : List (Color × Cell × Cell))
    (hinv : b.lastCut = b.cuts.getLast?) :
    (runEngineMoves b ms).cuts = b.cuts ++ capturedDuring b ms
      ∧ (runEngineMoves b ms).lastCut = (runEngineMoves b ms).cuts.getLast?
      ∧ (runEngineMoves b ms).reload.cuts = (runEngineMoves b ms).cuts
      ∧ (runEngineMoves b ms).reload.lastCut = none := by
  obtain ⟨h1, h2⟩ := runEngineMoves_inv b ms hinv
  exact ⟨h1, h2, rfl, rfl⟩

/-- C2 witness: the `test_cuts` capture scenario records exactly one
`(PAWN, BLACK)` cut. -/
theorem cuts_bookkeeping_witness :
    pawnBoard.lastCut = pawnBoard.cuts.getLast?
      ∧ (runEngineMoves pawnBoard cutScenario).cuts
          = pawnBoard.cuts ++ capturedDuring pawnBoard cutScenario
      ∧ (runEngineMoves pawnBoard cutScenario).cuts = [(Kind.pawn, Color.black)] :=
  ⟨rfl, (cuts_bookkeeping pawnBoard cutScenario rfl).1, by decide⟩

/-- C2 counterexample: after e2-e4, d7-d5, e4xd5 the live board's `lastCut` is
the pawn capture, but the board obtained by reloading the game through the
white player's token has `cuts = [(PAWN, BLACK)]` while `lastCut` is empty —
so on a reconstructed board `lastCut` does not equal the most recent entry of
`cuts` as the claim states. -/
theorem cuts_lastCut_reload_counterexample :
    (loadGame (runSession pawnGame cutScenario) "1234").map
        (fun s => (s.board.cuts, s.board.lastCut))
      = .ok ([(Kind.pawn, Color.black)], none)
      ∧ (runSession pawnGame cutScenario).board.lastCut = some (Kind.pawn, Color.black) := by
  exact ⟨rfl, rfl⟩

/-- C4: starting from a session with an empty history, a move-history query by
color `c` while the game is in progress returns exactly `c`'s own accepted
moves in play order, and after the game has ended (for any reason) it returns
the full interleaved history of both players in play order. -/
theorem moves_disclosure (s0 : GameState) (ms : List (Color × Cell × Cell)) (c : Color)
    (h0 : s0.history = []) :
    ((runSession s0 ms).ended = none →
        (runSession s0 ms).movesQuery c
          = ((acceptedMoves s0 ms).filter (fun m => decide (m.1 = c))).map moveName)
      ∧ ∀ e, (runSession s0 ms).ended = some e →
          (runSession s0 ms).movesQuery c = (acceptedMoves s0 ms).map moveName := by
  have hh := runSession_history s0 ms
  rw [h0] at hh
  simp only [List.nil_append] at hh
  constructor
  · intro hE
    simp [GameState.movesQuery, hE, hh]
  · intro e hE
    simp [GameState.movesQuery, hE, hh]

/-- C4 witness: in the in-progress capture scenario white's query sees only
white's moves, formatted the way the repository stores them. -/
theorem moves_disclosure_witness :
    (runSession pawnGame cutScenario).movesQuery Color.white
        = ((acceptedMoves pawnGame cutScenario).filter
            (fun m => decide (m.1 = Color.white))).map moveName
      ∧ (runSession pawnGame cutScenario).movesQuery Color.white = ["e2-e4", "e4-d5"] :=
  ⟨(moves_disclosure pawnGame cutScenario Color.white rfl).1 (by decide), by decide⟩

/-- C9: when the engine accepts a move but persisting it fails, the session
surfaces the generic base failure and commits nothing — the error result
carries no new state, no history append, no notification and no cache
invalidation. -/
theorem persistence_failure_not_committed (s : GameState) (c : Color) (src tgt : Cell)
    (hend : s.ended = none) (hturn : c = s.turn)
    (heng : ∃ r, engineMove s.board c src tgt = .ok r) :
    sessionMove s c src tgt false = .error .base := by
  obtain ⟨⟨b2, o⟩, heng⟩ := heng
  subst hturn
  simp [sessionMove, hend, heng]

/-- C9 witness: white's opening move with a failing persistence layer yields
exactly the base failure. -/
theorem persistence_failure_witness :
    sessionMove pawnGame Color.white (sq 5 2) (sq 5 4) false = .error .base :=
  persistence_failure_not_committed pawnGame Color.white (sq 5 2) (sq 5 4) rfl rfl ⟨_, rfl⟩

theorem loadGame_white_token (s : GameState) :
    loadGame s s.white
      = .ok { s with loadedBy := some Color.white, board := s.board.reload } := by
  simp [loadGame]

theorem loadGame_black_token (s : GameState) (hne : s.black ≠ s.white) :
    loadGame s s.black
      = .ok { s with loadedBy := some Color.black, board := s.board.reload } := by
  simp [loadGame, hne]

/-- C10: `get_color()` with no argument raises ValueError on a session never
resolved from a player token, and on a session loaded via `load_game` it
returns WHITE for the white player's token and BLACK for the black player's
token. -/
theorem get_color_resolution (s : GameState) :
    (s.loadedBy = none → s.get_color none = .error .valueError)
      ∧ (∀ s2, loadGame s s.white = .ok s2 → s2.get_color none = .ok Color.white)
      ∧ (∀ s2, s.black ≠ s.white → loadGame s s.black = .ok s2 →
          s2.get_color none = .ok Color.black) := by
  refine ⟨?_, ?_, ?_⟩
  · intro h
    simp [GameState.get_color, h]
  · intro s2 h
    rw [loadGame_white_token s] at h
    simp only [Except.ok.injEq] at h
    subst h
    rfl
  · intro s2 hne h
    rw [loadGame_black_token s hne] at h
    simp only [Except.ok.injEq] at h
    subst h
    rfl

/-- The session as loaded through the white player's token. -/
def whiteLoadedGame : GameState :=
  { pawnGame with loadedBy := some Color.white, board := pawnGame.board.reload }

/-- The session as loaded through the black player's token. -/
def blackLoadedGame : GameState :=
  { pawnGame with loadedBy := some Color.black, board := pawnGame.board.reload }

/-- C10 witness: the test suite's session — directly constructed it raises
ValueError, loaded by "1234" it answers WHITE, loaded by "qwer" it answers
BLACK. -/
theorem get_color_resolution_witness :
    pawnGame.get_color none = .error .valueError
      ∧ whiteLoadedGame.get_color none = .ok Color.white
      ∧ blackLoadedGame.get_color none = .ok Color.black :=
  ⟨(get_color_resolution pawnGame).1 rfl,
   (get_color_resolution pawnGame).2.1 whiteLoadedGame rfl,
   (get_color_resolution pawnGame).2.2 blackLoadedGame (by decide) rfl⟩

/-- The state a session reaches when a mutual draw offer finalizes: ended by
draw with no winner, both offer flags cleared. -/
def GameState.drawFinalized (s : GameState) : GameState :=
  { s with ended := some (.draw, none), drawWhite := false, drawBlack := false }

/-- C5 (amended): on an in-progress session on the requester's turn, move
failures are determined in order — occupant resolution of the source comes
first but itself bounds-checks, so an off-grid source fails OutOfBoard; an
empty on-grid source fails NotFound; then ownership (WrongFigure); then the
target's bounds (OutOfBoard); then geometry (WrongMove). -/
theorem move_failure_order (s : GameState) (c : Color) (src tgt : Cell) (p : Bool)
    (hend : s.ended = none) (hturn : c = s.turn) :
    (onBoard src = false → sessionMove s c src tgt p = .error .outOfBoard)
      ∧ (onBoard src = true → s.board.figureAt src = none →
          sessionMove s c src tgt p = .error .notFound)
      ∧ (∀ g, onBoard src = true → s.board.figureAt src = some g → g.color ≠ c →
          sessionMove s c src tgt p = .error .wrongFigure)
      ∧ (∀ g, onBoard src = true → s.board.figureAt src = some g → g.color = c →
          onBoard tgt = false → sessionMove s c src tgt p = .error .outOfBoard)
      ∧ (∀ g, onBoard src = true → s.board.figureAt src = some g → g.color = c →
          onBoard tgt = true →
          (decide (g.kind = Kind.king) && decide ((tgt.x - src.x).natAbs = 2)
              && decide (tgt.y = src.y)) = false →
          isLegalMove s.board g tgt = false →
          sessionMove s c src tgt p = .error .wrongMove) := by
  subst hturn
  refine ⟨?_, ?_, ?_, ?_, ?_⟩
  · intro h1
    simp [sessionMove, hend, engineMove, h1]
  · intro h1 h2
    simp [sessionMove, hend, engineMove, h1, h2]
  · intro g h1 h2 h3
    simp [sessionMove, hend, engineMove, h1, h2, h3]
  · intro g h1 h2 h3 h4
    simp [sessionMove, hend, engineMove, h1, h2, h3, h4]
  · intro g h1 h2 h3 h4 h5 h6
    simp [sessionMove, hend, engineMove, h1, h2, h3, h4, h5, h6]

/-- C5 witness: moving from the empty on-grid square d4 fails with
NotFound. -/
theorem move_failure_order_witness :
    sessionMove pawnGame Color.white (sq 4 4) (sq 4 5) true = .error .notFound :=
  (move_failure_order pawnGame Color.white (sq 4 4) (sq 4 5) true rfl rfl).2.1 rfl rfl

/-- C5 counterexample: a move whose source square e9 lies outside the grid
fails with OutOfBoard, not with NotFound as the claim asserts (this is the
`game_t.py:241` behaviour). -/
theorem source_off_grid_counterexample :
    sessionMove pawnGame Color.white (sq 5 9) (sq 5 8) true = .error .outOfBoard
      ∧ sessionMove pawnGame Color.white (sq 5 9) (sq 5 8) true ≠ .error .notFound := by
  refine ⟨rfl, ?_⟩
  intro hcon
  rw [show sessionMove pawnGame Color.white (sq 5 9) (sq 5 8) true
      = Except.error GameError.outOfBoard from rfl] at hcon
  exact absurd hcon (by simp)

/-- C7: `draw_accept` with no color defaults to the loading player's own
color; an accept by one color records only that color's flag, notifies the
opponent and does not finalize; the opposing color's accept (the two calls in
either order, since `c` ranges over both colors) then finalizes the game as a
draw exactly once, clearing both flags and notifying both players. -/
theorem draw_accept_protocol (s : GameState) (c : Color)
    (hend : s.ended = none) (hw : s.drawWhite = false) (hb : s.drawBlack = false) :
    (∀ p, s.loadedBy = some p → drawAccept s none = drawAccept s (some p))
      ∧ drawAccept s (some c)
          = .ok (s.setDrawFlag c, [.sendWs .drawRequest (some c.other)])
      ∧ (s.setDrawFlag c).ended = none
      ∧ drawAccept (s.setDrawFlag c) (some c.other)
          = .ok (s.drawFinalized,
                 [.sendWs .draw (some Color.white), .sendWs .draw (some Color.black)]) := by
  refine ⟨?_, ?_, ?_, ?_⟩
  · intro p hp
    simp [drawAccept, GameState.get_color, hp]
  · cases c <;>
      simp [drawAccept, checkDraw, GameState.setDrawFlag, GameState.get_color, Color.other,
        hend, hw, hb]
  · cases c <;> simp [GameState.setDrawFlag, hend]
  · cases c <;>
      simp [drawAccept, checkDraw, GameState.setDrawFlag, GameState.get_color, Color.other,
        GameState.drawFinalized, hend, hw, hb]

/-- The test session as the white player loaded it, about to offer a draw. -/
def offeredGame : GameState := { pawnGame with loadedBy := some Color.white }

/-- C7 witness: white offers, black accepts — the first call only records the
offer and notifies black, the second finalizes the draw and notifies both. -/
theorem draw_accept_protocol_witness :
    drawAccept offeredGame (some Color.white)
        = .ok (offeredGame.setDrawFlag Color.white, [.sendWs .drawRequest (some Color.black)])
      ∧ drawAccept (offeredGame.setDrawFlag Color.white) (some Color.black)
        = .ok (offeredGame.drawFinalized,
               [.sendWs .draw (some Color.white), .sendWs .draw (some Color.black)]) :=
  ⟨(draw_accept_protocol offeredGame Color.white rfl rfl rfl).2.1,
   (draw_accept_protocol offeredGame Color.white rfl rfl rfl).2.2.2⟩

/-- C8 (amended): `check_draw` returns true and finalizes the draw (clearing
both flags, notifying both players) exactly when both colors' draw flags are
set AND the session has not already ended; in every other state — in
particular any already-ended one — it returns false without raising and
without modifying the session. -/
theorem check_draw_characterization (s : GameState) :
    ((checkDraw s).1 = true ↔ s.ended = none ∧ s.drawWhite = true ∧ s.drawBlack = true)
      ∧ ((checkDraw s).1 = true →
          (checkDraw s).2.1 = s.drawFinalized
            ∧ (checkDraw s).2.2
              = [.sendWs .draw (some Color.white), .sendWs .draw (some Color.black)])
      ∧ ((checkDraw s).1 = false → (checkDraw s).2.1 = s ∧ (checkDraw s).2.2 = []) := by
  rcases hE : s.ended with _ | e
  · cases hW : s.drawWhite <;> cases hB : s.drawBlack <;>
      simp [checkDraw, GameState.drawFinalized, hE, hW, hB]
  · simp [checkDraw, hE]

/-- An in-progress session in which both colors' draw offers are pending. -/
def liveOffersGame : GameState := { pawnGame with drawWhite := true, drawBlack := true }

/-- C8 witness: with both flags set on a live session, `check_draw` returns
true and finalizes the draw. -/
theorem check_draw_characterization_witness :
    (checkDraw liveOffersGame).1 = true
      ∧ (checkDraw liveOffersGame).2.1 = liveOffersGame.drawFinalized :=
  ⟨(check_draw_characterization liveOffersGame).1.2 ⟨rfl, rfl, rfl⟩,
   ((check_draw_characterization liveOffersGame).2.1
      ((check_draw_characterization liveOffersGame).1.2 ⟨rfl, rfl, rfl⟩)).1⟩

/-- A session that already ended by resignation while both draw flags are
still set. -/
def staleOffersGame : GameState :=
  { resignedGame with drawWhite := true, drawBlack := true }

/-- C8 counterexample: both colors' draw flags are set, yet `check_draw` on
this already-ended session returns false — refuting the claim's "if and only
if both colors' draw flags are currently set". -/
theorem check_draw_ended_counterexample :
    staleOffersGame.drawWhite = true ∧ staleOffersGame.drawBlack = true
      ∧ (checkDraw staleOffersGame).1 = false :=
  ⟨rfl, rfl, rfl⟩

end DarkChess
